import Mathlib

/-!
# Verification of the conv2docx CLI pipeline

Shallow embedding of `src/conv2docx/cli.py`: a sequential pipeline that
converts YAML/JSON files to DOCX via JSON and fenced-Markdown intermediates.

The embedding models:
* the Python value trees produced by `yaml.safe_load` (floats and other
  exotic scalar tags are omitted; no claim depends on them);
* the `json.dump(data, dst, indent=4, ensure_ascii=False)` serializer,
  including its coercion of non-string mapping keys to strings;
* `os.path.basename`, `os.path.splitext` (POSIX behaviour), `str.lower`
  (restricted to ASCII, which is all the extension checks need) and
  `str.endswith` with a tuple of suffixes;
* the file system as an association list from paths to string contents;
  reads and writes succeed exactly when the path is present, writes always
  succeed (disk-level write failures are out of scope for the claims);
* the external collaborators `yaml.safe_load` and `pypandoc.convert_file`
  as opaque oracles carried in an `Env` record, since their internals are
  not part of this repository.

The pipeline functions (`convert_yaml_to_json`, `prepare_markdown_file`,
`convert_md_to_docx`, `main`) are translated line by line from `cli.py`,
with the file system threaded explicitly.
-/

/-- Hashable Python scalars that can appear as mapping keys after
`yaml.safe_load` (floats omitted). -/
inductive PyKey where
  | none : PyKey
  | bool : Bool → PyKey
  | int : Int → PyKey
  | str : String → PyKey
deriving DecidableEq

/-- Python value trees as produced by `yaml.safe_load` and consumed by
`json.dump`: `None`, booleans, integers, strings, lists and dicts
(association lists, preserving insertion order as CPython dicts do). -/
inductive PyValue where
  | none : PyValue
  | bool : Bool → PyValue
  | int : Int → PyValue
  | str : String → PyValue
  | list : List PyValue → PyValue
  | dict : List (PyKey × PyValue) → PyValue

/-- Hexadecimal digit character, lower case, as used by Python's
`json` encoder in `\uXXXX` escapes. -/
def hexDigit (n : Nat) : Char :=
  if n < 10 then Char.ofNat (48 + n) else Char.ofNat (87 + n)

/-- Four-digit lower-case hexadecimal rendering of a code point below 0x10000. -/
def hex4 (n : Nat) : String :=
  String.mk [hexDigit (n / 4096 % 16), hexDigit (n / 256 % 16),
             hexDigit (n / 16 % 16), hexDigit (n % 16)]

/-- Escaping of one character inside a JSON string literal when
`ensure_ascii=False`: only the backslash, the double quote and control
characters below 0x20 are escaped; every other character — in particular
every non-ASCII character — is emitted literally. -/
def jsonEscapeChar (c : Char) : String :=
  if c = '\\' then "\\\\"
  else if c = '"' then "\\\""
  else if c = '\n' then "\\n"
  else if c = '\r' then "\\r"
  else if c = '\t' then "\\t"
  else if c = Char.ofNat 8 then "\\b"
  else if c = Char.ofNat 12 then "\\f"
  else if c.toNat < 32 then "\\u" ++ hex4 c.toNat
  else String.singleton c

/-- JSON string literal for `s`, as written by `json.dump` with
`ensure_ascii=False`. -/
def jsonEncodeString (s : String) : String :=
  "\"" ++ String.join (s.data.map jsonEscapeChar) ++ "\""

/-- `4 * lvl` spaces: the indentation prefix `json.dump(..., indent=4)`
puts before an element nested at depth `lvl`. -/
def indentStr (lvl : Nat) : String := String.mk (List.replicate (4 * lvl) ' ')

/-- How `json.dump` coerces a non-string mapping key to a string:
`True`/`False` become `"true"`/`"false"`, `None` becomes `"null"`,
integers their decimal representation, strings stay themselves. -/
def keyToString : PyKey → String
  | .str s => s
  | .int n => toString n
  | .bool true => "true"
  | .bool false => "false"
  | .none => "null"

mutual
/-- The text `json.dump(data, dst, indent=4, ensure_ascii=False)` writes for
`data` nested at depth `lvl`: 4-space indentation, `", "`/`": "` separators
with a newline after every comma, empty containers rendered inline, and
non-ASCII characters passed through unescaped. -/
def dumpValue : PyValue → Nat → String
  | .none, _ => "null"
  | .bool true, _ => "true"
  | .bool false, _ => "false"
  | .int n, _ => toString n
  | .str s, _ => jsonEncodeString s
  | .list [], _ => "[]"
  | .list (x :: rest), lvl =>
      "[\n" ++ indentStr (lvl + 1) ++ dumpValue x (lvl + 1)
        ++ dumpListRest rest (lvl + 1) ++ "\n" ++ indentStr lvl ++ "]"
  | .dict [], _ => "\x7b\x7d"
  | .dict ((k, v) :: rest), lvl =>
      "\x7b\n" ++ indentStr (lvl + 1) ++ jsonEncodeString (keyToString k) ++ ": "
        ++ dumpValue v (lvl + 1) ++ dumpEntriesRest rest (lvl + 1)
        ++ "\n" ++ indentStr lvl ++ "\x7d"

/-- Remaining list elements after the first: each preceded by `",\n"` and
the indentation of its depth. -/
def dumpListRest : List PyValue → Nat → String
  | [], _ => ""
  | x :: rest, lvl => ",\n" ++ indentStr lvl ++ dumpValue x lvl ++ dumpListRest rest lvl

/-- Remaining dict entries after the first: each preceded by `",\n"` and
the indentation of its depth. -/
def dumpEntriesRest : List (PyKey × PyValue) → Nat → String
  | [], _ => ""
  | (k, v) :: rest, lvl =>
      ",\n" ++ indentStr lvl ++ jsonEncodeString (keyToString k) ++ ": "
        ++ dumpValue v lvl ++ dumpEntriesRest rest lvl
end

mutual
/-- The value tree with every mapping key replaced by the string
`json.dump` coerces it to; the semantic content of the JSON artifact. -/
def coerceKeys : PyValue → PyValue
  | .none => .none
  | .bool b => .bool b
  | .int n => .int n
  | .str s => .str s
  | .list xs => .list (coerceKeysList xs)
  | .dict kvs => .dict (coerceKeysEntries kvs)

/-- `coerceKeys` mapped over a list of values. -/
def coerceKeysList : List PyValue → List PyValue
  | [] => []
  | x :: rest => coerceKeys x :: coerceKeysList rest

/-- `coerceKeys` mapped over dict entries, stringifying each key. -/
def coerceKeysEntries : List (PyKey × PyValue) → List (PyKey × PyValue)
  | [] => []
  | (k, v) :: rest => (.str (keyToString k), coerceKeys v) :: coerceKeysEntries rest
end

mutual
/-- `true` iff every mapping key anywhere in the tree is already a string,
so that `json.dump` serializes the tree without changing its keys. -/
def allStrKeys : PyValue → Bool
  | .none => true
  | .bool _ => true
  | .int _ => true
  | .str _ => true
  | .list xs => allStrKeysList xs
  | .dict kvs => allStrKeysEntries kvs

/-- `allStrKeys` over a list of values. -/
def allStrKeysList : List PyValue → Bool
  | [] => true
  | x :: rest => allStrKeys x && allStrKeysList rest

/-- `allStrKeys` over dict entries. -/
def allStrKeysEntries : List (PyKey × PyValue) → Bool
  | [] => true
  | (k, v) :: rest =>
      (match k with | .str _ => true | _ => false) && allStrKeys v && allStrKeysEntries rest
end

/-- Characters after the last `'/'` (accumulator holds the current segment
reversed); the recursion mirrors scanning the path left to right and
restarting at every separator. -/
def basenameChars : List Char → List Char → List Char
  | [], acc => acc.reverse
  | c :: rest, acc =>
      if c = '/' then basenameChars rest [] else basenameChars rest (c :: acc)

/-- `os.path.basename` (POSIX): the part of the path after the last `'/'`. -/
def os_basename (s : String) : String := String.mk (basenameChars s.data [])

/-- Split a character list at its last `'.'`, the dot going with the second
component; `none` when there is no dot. -/
def splitLastDot : List Char → Option (List Char × List Char)
  | [] => Option.none
  | c :: rest =>
      match splitLastDot rest with
      | some (r, e) => some (c :: r, e)
      | Option.none => if c = '.' then some ([], '.' :: rest) else Option.none

/-- Extension split of a path's final component, per `posixpath.splitext`:
leading dots of the component never start an extension, otherwise the split
is at the last dot. -/
def splitextTail (b : List Char) : List Char × List Char :=
  let lead := b.takeWhile (fun c => c = '.')
  let rest := b.dropWhile (fun c => c = '.')
  match splitLastDot rest with
  | some (r, e) => (lead ++ r, e)
  | Option.none => (b, [])

/-- `os.path.splitext` (POSIX): `(root, ext)` with `root ++ ext`
the original path and `ext` the final component's extension
(empty, or starting with a dot). -/
def os_splitext (s : String) : String × String :=
  let base := basenameChars s.data []
  let dir := s.data.take (s.data.length - base.length)
  let re := splitextTail base
  (String.mk (dir ++ re.1), String.mk re.2)

/-- Python's `str.lower`, restricted to ASCII (the only characters the
extension comparisons in `cli.py` involve). -/
def pyLower (s : String) : String := String.mk (s.data.map Char.toLower)

/-- Python's `str.endswith` with a tuple of suffixes: does `s` end with any
of them? -/
def endsWithAny (s : String) (sufs : List String) : Bool :=
  sufs.any (fun t => t.data.isSuffixOf s.data)

/-- The file system: an association list from paths to string contents.
Later shadowed entries never occur because `fsWrite` erases the old entry. -/
abbrev FS := List (String × String)

/-- Contents at path `p`, or `none` when no file is there
(a Python `open(p)` for reading would raise). -/
def fsRead : FS → String → Option String
  | [], _ => Option.none
  | (q, c) :: rest, p => if q = p then some c else fsRead rest p

/-- `os.path.isfile` / `os.path.exists` for this model. -/
def fsExists (fs : FS) (p : String) : Bool := (fsRead fs p).isSome

/-- `os.remove p` (the callers in `cli.py` only invoke it after an
`os.path.exists` check): drop every entry stored at `p`. -/
def fsRemove : FS → String → FS
  | [], _ => []
  | (q, c) :: rest, p => if q = p then fsRemove rest p else (q, c) :: fsRemove rest p

/-- Create or overwrite the file at `p` with contents `c`
(Python `open(p, "w")` followed by a full write). -/
def fsWrite (fs : FS) (p c : String) : FS :=
  (p, c) :: fsRemove fs p

/-- `os.listdir()` for the current working directory: the names in the file
system that contain no path separator, in storage order (the real listing
order is unspecified). -/
def listdir (fs : FS) : List String :=
  (fs.map Prod.fst).filter (fun p => p.data.all (fun c => c ≠ '/'))

/-- The external collaborators, outside this repository, as opaque oracles:
`yamlParse content` is the result of `yaml.safe_load` on `content` (`none`
when it raises), and `pandoc mdPath` is the DOCX bytes produced by
`pypandoc.convert_file mdPath "docx"` (`none` when it raises). -/
structure Env where
  yamlParse : String → Option PyValue
  pandoc : String → Option String

/-- Lines 8–31 of `cli.py`: read `input_file`, parse it with
`yaml.safe_load`, serialize with `json.dump(..., indent=4,
ensure_ascii=False)` to `input_file + ".json"`; any failure is caught and
yields `none` (the dead `base_name` local of line 15 is not modelled). -/
def convert_yaml_to_json (env : Env) (fs : FS) (input_file : String) :
    FS × Option String :=
  let json_file := input_file ++ ".json"
  match fsRead fs input_file with
  | Option.none => (fs, Option.none)
  | some content =>
      match env.yamlParse content with
      | Option.none => (fs, Option.none)
      | some data => (fsWrite fs json_file (dumpValue data 0), some json_file)

/-- Lines 33–66 of `cli.py`: if `input_file` exists, wrap its contents in a
fenced `json` code block and write the result to `input_file + ".md"`;
`none` when the file is missing. -/
def prepare_markdown_file (fs : FS) (input_file : String) : FS × Option String :=
  if fsExists fs input_file then
    match fsRead fs input_file with
    | Option.none => (fs, Option.none)
    | some content =>
        let md_file := input_file ++ ".md"
        let new_content := "```json\n" ++ content ++ "\n```"
        (fsWrite fs md_file new_content, some md_file)
  else (fs, Option.none)

/-- Lines 69–86 of `cli.py`: derive the output name by stripping the
directory and the final extension of `input_file` and appending `.docx`,
then call pypandoc; `true` with the DOCX written on success, `false`
leaving the file system unchanged on failure. -/
def convert_md_to_docx (env : Env) (fs : FS) (input_file : String) : FS × Bool :=
  let base_name := (os_splitext (os_basename input_file)).1
  let output_file := base_name ++ ".docx"
  match env.pandoc input_file with
  | some docx => (fsWrite fs output_file docx, true)
  | Option.none => (fs, false)

/-- Lines 130–158 of `cli.py`, the loop body from step 2 on, once
`json_file` is fixed (the original input itself, or the freshly written
JSON artifact): prepare the Markdown file, convert it, then assemble the
removal list — `json_file` only when it differs from `file`, plus the
Markdown file — and delete each existing entry unless `keep_temp`. -/
def stepsFromJson (env : Env) (keep_temp : Bool) (fs : FS)
    (file json_file : String) : FS :=
  match prepare_markdown_file fs json_file with
  | (fs1, Option.none) => fs1
  | (fs1, some md_file) =>
      let fs2 := (convert_md_to_docx env fs1 md_file).1
      let to_remove := (if json_file ≠ file then [json_file] else []) ++ [md_file]
      if keep_temp then fs2
      else to_remove.foldl (fun a p => if fsExists a p then fsRemove a p else a) fs2

/-- Lines 115–158 of `cli.py`: one iteration of the main loop. YAML/YML
inputs (by lower-cased `splitext` extension) go through
`convert_yaml_to_json` first and are skipped when it fails; everything
else is treated as JSON directly. -/
def processFile (env : Env) (keep_temp : Bool) (fs : FS) (file : String) : FS :=
  let ext := pyLower (os_splitext file).2
  if ext = ".yaml" ∨ ext = ".yml" then
    match convert_yaml_to_json env fs file with
    | (fs1, Option.none) => fs1
    | (fs1, some json_file) => stepsFromJson env keep_temp fs1 file json_file
  else
    stepsFromJson env keep_temp fs file file

/-- Lines 101–105 of `cli.py`: `keep_temp` is whether any argument equals
`"--keep-temp"`, and the file list is the arguments with every such token
removed. -/
def parseArgs (argv : List String) : Bool × List String :=
  (argv.contains "--keep-temp", argv.filter (fun a => a ≠ "--keep-temp"))

/-- Lines 105–109 of `cli.py`: the explicit file arguments, or — when there
are none — the working-directory entries whose lower-cased name ends in
`.json`, `.yaml` or `.yml`. -/
def resolvedFiles (argv : List String) (fs : FS) : List String :=
  let input_files := (parseArgs argv).2
  if input_files.isEmpty then
    (listdir fs).filter (fun f => endsWithAny (pyLower f) [".json", ".yaml", ".yml"])
  else input_files

/-- Lines 88–158 of `cli.py`: the driver. Returns the final file system and
the process exit status: `sys.exit(1)` when no candidate files exist,
otherwise a normal return (exit status 0) after folding `processFile` over
the whole list — the loop has no early exit. (Named `cliMain` here because
`main` is reserved in Lean; it embeds `cli.py`'s `main`.) -/
def cliMain (env : Env) (argv : List String) (fs : FS) : FS × Nat :=
  let keep_temp := (parseArgs argv).1
  let files := resolvedFiles argv fs
  if files.isEmpty then (fs, 1)
  else (files.foldl (processFile env keep_temp) fs, 0)


/-- A concrete oracle environment whose YAML parser always yields the
one-character non-ASCII string `"é"` and whose pandoc always fails;
used by the concrete verification instances below. -/
def envC1 : Env := ⟨fun _ => some (.str "é"), fun _ => Option.none⟩

/-- A concrete oracle environment matching the spec's walkthrough: YAML
parsing yields the one-entry mapping `k: v` and pandoc succeeds. -/
def envKV : Env :=
  ⟨fun _ => some (.dict [(.str "k", .str "v")]), fun _ => some "DOCX"⟩

/-- A concrete oracle environment whose pandoc always succeeds and whose
YAML parser always fails. -/
def envDocx : Env := ⟨fun _ => Option.none, fun _ => some "DOCX"⟩

/-- A concrete oracle environment in which both collaborators always fail. -/
def envFail : Env := ⟨fun _ => Option.none, fun _ => Option.none⟩

/-! ## File-system lemmas -/

theorem fsRead_remove_ne (fs : FS) (p q : String) (h : q ≠ p) :
    fsRead (fsRemove fs p) q = fsRead fs q := by
  induction fs with
  | nil => rfl
  | cons e rest ih =>
      obtain ⟨a, c⟩ := e
      simp only [fsRemove]
      by_cases hap : a = p
      · rw [if_pos hap, ih]
        simp only [fsRead]
        rw [if_neg (fun hq : a = q => h (hq ▸ hap))]
      · rw [if_neg hap]
        simp only [fsRead]
        by_cases haq : a = q
        · rw [if_pos haq, if_pos haq]
        · rw [if_neg haq, if_neg haq, ih]

theorem fsRead_remove_self (fs : FS) (p : String) :
    fsRead (fsRemove fs p) p = Option.none := by
  induction fs with
  | nil => rfl
  | cons e rest ih =>
      obtain ⟨a, c⟩ := e
      simp only [fsRemove]
      by_cases hap : a = p
      · rw [if_pos hap]; exact ih
      · rw [if_neg hap]
        simp only [fsRead]
        rw [if_neg hap]
        exact ih

theorem fsRead_write_self (fs : FS) (p c : String) :
    fsRead (fsWrite fs p c) p = some c := by
  simp [fsWrite, fsRead]

theorem fsRead_write_ne (fs : FS) (p c q : String) (h : q ≠ p) :
    fsRead (fsWrite fs p c) q = fsRead fs q := by
  simp only [fsWrite, fsRead]
  rw [if_neg (fun hq => h hq.symm), fsRead_remove_ne fs p q h]

theorem fsExists_write_self (fs : FS) (p c : String) :
    fsExists (fsWrite fs p c) p = true := by
  simp [fsExists, fsRead_write_self]

theorem fsExists_write_mono (fs : FS) (p c q : String) (h : fsExists fs q = true) :
    fsExists (fsWrite fs p c) q = true := by
  by_cases hq : q = p
  · subst hq; exact fsExists_write_self fs q c
  · rw [fsExists, fsRead_write_ne fs p c q hq]; exact h

theorem fsExists_remove_ne (fs : FS) (p q : String) (h : q ≠ p) :
    fsExists (fsRemove fs p) q = fsExists fs q := by
  rw [fsExists, fsRead_remove_ne fs p q h, fsExists]

theorem string_append_ne (s t : String) (h : t ≠ "") : s ++ t ≠ s := by
  intro he
  apply h
  have hd := congrArg String.data he
  rw [String.data_append] at hd
  have hlen := congrArg List.length hd
  rw [List.length_append] at hlen
  have hz : t.data.length = 0 := by omega
  exact String.ext (List.eq_nil_of_length_eq_zero hz)

/-! ## Pipeline step equations -/

theorem convert_yaml_eq (env : Env) (fs : FS) (input_file content : String) (data : PyValue)
    (h1 : fsRead fs input_file = some content)
    (h2 : env.yamlParse content = some data) :
    convert_yaml_to_json env fs input_file =
      (fsWrite fs (input_file ++ ".json") (dumpValue data 0),
       some (input_file ++ ".json")) := by
  simp [convert_yaml_to_json, h1, h2]

theorem convert_yaml_parse_fail (env : Env) (fs : FS) (input_file content : String)
    (h1 : fsRead fs input_file = some content)
    (h2 : env.yamlParse content = Option.none) :
    convert_yaml_to_json env fs input_file = (fs, Option.none) := by
  simp [convert_yaml_to_json, h1, h2]

theorem prepare_markdown_eq (fs : FS) (input_file content : String)
    (h : fsRead fs input_file = some content) :
    prepare_markdown_file fs input_file =
      (fsWrite fs (input_file ++ ".md") ("```json\n" ++ content ++ "\n```"),
       some (input_file ++ ".md")) := by
  simp [prepare_markdown_file, fsExists, h]

theorem convert_docx_ok (env : Env) (fs : FS) (input_file docx : String)
    (h : env.pandoc input_file = some docx) :
    convert_md_to_docx env fs input_file =
      (fsWrite fs ((os_splitext (os_basename input_file)).1 ++ ".docx") docx, true) := by
  simp [convert_md_to_docx, h]

theorem fsExists_docx_mono (env : Env) (fs : FS) (mdf q : String)
    (h : fsExists fs q = true) :
    fsExists (convert_md_to_docx env fs mdf).1 q = true := by
  unfold convert_md_to_docx
  cases hp : env.pandoc mdf with
  | none => simpa using h
  | some docx => simpa using fsExists_write_mono fs _ docx q h

theorem processFile_yaml_eq (env : Env) (keep : Bool) (fs : FS)
    (file content : String) (data : PyValue)
    (hext : pyLower (os_splitext file).2 = ".yaml" ∨ pyLower (os_splitext file).2 = ".yml")
    (hread : fsRead fs file = some content)
    (hparse : env.yamlParse content = some data) :
    processFile env keep fs file =
      stepsFromJson env keep (fsWrite fs (file ++ ".json") (dumpValue data 0))
        file (file ++ ".json") := by
  simp only [processFile]
  rw [if_pos hext, convert_yaml_eq env fs file content data hread hparse]

theorem processFile_yaml_fail (env : Env) (keep : Bool) (fs : FS) (file content : String)
    (hext : pyLower (os_splitext file).2 = ".yaml" ∨ pyLower (os_splitext file).2 = ".yml")
    (hread : fsRead fs file = some content)
    (hparse : env.yamlParse content = Option.none) :
    processFile env keep fs file = fs := by
  simp only [processFile]
  rw [if_pos hext, convert_yaml_parse_fail env fs file content hread hparse]

theorem processFile_other_eq (env : Env) (keep : Bool) (fs : FS) (file : String)
    (hext : ¬(pyLower (os_splitext file).2 = ".yaml" ∨ pyLower (os_splitext file).2 = ".yml")) :
    processFile env keep fs file = stepsFromJson env keep fs file file := by
  simp only [processFile]
  rw [if_neg hext]

theorem stepsFromJson_keep (env : Env) (fs : FS) (file json_file content : String)
    (hread : fsRead fs json_file = some content) :
    fsExists (stepsFromJson env true fs file json_file) json_file = true ∧
    fsExists (stepsFromJson env true fs file json_file) (json_file ++ ".md") = true := by
  simp only [stepsFromJson]
  rw [prepare_markdown_eq fs json_file content hread]
  simp only [if_pos]
  constructor
  · exact fsExists_docx_mono env _ _ json_file
      (fsExists_write_mono fs _ _ json_file (by simp [fsExists, hread]))
  · exact fsExists_docx_mono env _ _ (json_file ++ ".md")
      (fsExists_write_self fs (json_file ++ ".md") _)

theorem stepsFromJson_cleanup (env : Env) (fs : FS) (file json_file content : String)
    (hread : fsRead fs json_file = some content)
    (hne : json_file ≠ file) :
    fsRead (stepsFromJson env false fs file json_file) json_file = Option.none ∧
    fsRead (stepsFromJson env false fs file json_file) (json_file ++ ".md") = Option.none := by
  have hmf : json_file ++ ".md" ≠ json_file := string_append_ne json_file ".md" (by decide)
  simp only [stepsFromJson]
  rw [prepare_markdown_eq fs json_file content hread]
  rw [if_pos hne]
  simp only [List.cons_append, List.nil_append, List.foldl_cons, List.foldl_nil,
    Bool.false_eq_true, if_false]
  have hex1 : fsExists (convert_md_to_docx env
      (fsWrite fs (json_file ++ ".md") ("```json\n" ++ content ++ "\n```"))
      (json_file ++ ".md")).1 json_file = true :=
    fsExists_docx_mono env _ _ json_file
      (fsExists_write_mono fs _ _ json_file (by simp [fsExists, hread]))
  have hex2 : fsExists (convert_md_to_docx env
      (fsWrite fs (json_file ++ ".md") ("```json\n" ++ content ++ "\n```"))
      (json_file ++ ".md")).1 (json_file ++ ".md") = true :=
    fsExists_docx_mono env _ _ (json_file ++ ".md") (fsExists_write_self fs _ _)
  rw [if_pos hex1]
  rw [if_pos (by rw [fsExists_remove_ne _ _ _ hmf]; exact hex2)]
  constructor
  · rw [fsRead_remove_ne _ _ _ (Ne.symm hmf), fsRead_remove_self]
  · rw [fsRead_remove_self]

theorem stepsFromJson_cleanup_self (env : Env) (fs : FS) (file content : String)
    (hread : fsRead fs file = some content) :
    fsRead (stepsFromJson env false fs file file) (file ++ ".md") = Option.none ∧
    fsExists (stepsFromJson env false fs file file) file = true := by
  have hmf : file ++ ".md" ≠ file := string_append_ne file ".md" (by decide)
  simp only [stepsFromJson]
  rw [prepare_markdown_eq fs file content hread]
  rw [if_neg (fun h : file ≠ file => h rfl)]
  simp only [List.nil_append, List.foldl_cons, List.foldl_nil,
    Bool.false_eq_true, if_false]
  have hex2 : fsExists (convert_md_to_docx env
      (fsWrite fs (file ++ ".md") ("```json\n" ++ content ++ "\n```"))
      (file ++ ".md")).1 (file ++ ".md") = true :=
    fsExists_docx_mono env _ _ (file ++ ".md") (fsExists_write_self fs _ _)
  rw [if_pos hex2]
  constructor
  · rw [fsRead_remove_self]
  · rw [fsExists_remove_ne _ _ _ (Ne.symm hmf)]
    exact fsExists_docx_mono env _ _ file
      (fsExists_write_mono fs _ _ file (by simp [fsExists, hread]))

/-! ## Serializer / key-coercion lemmas -/

mutual
theorem dumpValue_coerce (v : PyValue) (lvl : Nat) :
    dumpValue (coerceKeys v) lvl = dumpValue v lvl := by
  cases v with
  | none => rfl
  | bool b => cases b <;> rfl
  | int n => rfl
  | str s => rfl
  | list xs =>
      cases xs with
      | nil => rfl
      | cons x rest =>
          simp only [coerceKeys, coerceKeysList, dumpValue,
            dumpValue_coerce x (lvl + 1), dumpListRest_coerce rest (lvl + 1)]
  | dict kvs =>
      cases kvs with
      | nil => rfl
      | cons kv rest =>
          obtain ⟨k, v1⟩ := kv
          simp only [coerceKeys, coerceKeysEntries, dumpValue, keyToString,
            dumpValue_coerce v1 (lvl + 1), dumpEntriesRest_coerce rest (lvl + 1)]

theorem dumpListRest_coerce (xs : List PyValue) (lvl : Nat) :
    dumpListRest (coerceKeysList xs) lvl = dumpListRest xs lvl := by
  cases xs with
  | nil => rfl
  | cons x rest =>
      simp only [coerceKeysList, dumpListRest,
        dumpValue_coerce x lvl, dumpListRest_coerce rest lvl]

theorem dumpEntriesRest_coerce (kvs : List (PyKey × PyValue)) (lvl : Nat) :
    dumpEntriesRest (coerceKeysEntries kvs) lvl = dumpEntriesRest kvs lvl := by
  cases kvs with
  | nil => rfl
  | cons kv rest =>
      obtain ⟨k, v1⟩ := kv
      simp only [coerceKeysEntries, dumpEntriesRest, keyToString,
        dumpValue_coerce v1 lvl, dumpEntriesRest_coerce rest lvl]
end

mutual
theorem coerceKeys_strKeys (v : PyValue) :
    allStrKeys (coerceKeys v) = true := by
  cases v with
  | none => rfl
  | bool b => rfl
  | int n => rfl
  | str s => rfl
  | list xs => simpa only [coerceKeys, allStrKeys] using coerceKeysList_strKeys xs
  | dict kvs => simpa only [coerceKeys, allStrKeys] using coerceKeysEntries_strKeys kvs

theorem coerceKeysList_strKeys (xs : List PyValue) :
    allStrKeysList (coerceKeysList xs) = true := by
  cases xs with
  | nil => rfl
  | cons x rest =>
      simp only [coerceKeysList, allStrKeysList,
        coerceKeys_strKeys x, coerceKeysList_strKeys rest, Bool.and_self]

theorem coerceKeysEntries_strKeys (kvs : List (PyKey × PyValue)) :
    allStrKeysEntries (coerceKeysEntries kvs) = true := by
  cases kvs with
  | nil => rfl
  | cons kv rest =>
      obtain ⟨k, v1⟩ := kv
      simp only [coerceKeysEntries, allStrKeysEntries,
        coerceKeys_strKeys v1, coerceKeysEntries_strKeys rest, Bool.and_self, Bool.true_and]
end

mutual
theorem coerceKeys_id (v : PyValue) (h : allStrKeys v = true) :
    coerceKeys v = v := by
  cases v with
  | none => rfl
  | bool b => rfl
  | int n => rfl
  | str s => rfl
  | list xs =>
      rw [coerceKeys, coerceKeysList_id xs (by simpa only [allStrKeys] using h)]
  | dict kvs =>
      rw [coerceKeys, coerceKeysEntries_id kvs (by simpa only [allStrKeys] using h)]

theorem coerceKeysList_id (xs : List PyValue) (h : allStrKeysList xs = true) :
    coerceKeysList xs = xs := by
  cases xs with
  | nil => rfl
  | cons x rest =>
      simp only [allStrKeysList, Bool.and_eq_true] at h
      rw [coerceKeysList, coerceKeys_id x h.1, coerceKeysList_id rest h.2]

theorem coerceKeysEntries_id (kvs : List (PyKey × PyValue)) (h : allStrKeysEntries kvs = true) :
    coerceKeysEntries kvs = kvs := by
  cases kvs with
  | nil => rfl
  | cons kv rest =>
      obtain ⟨k, v1⟩ := kv
      simp only [allStrKeysEntries, Bool.and_eq_true] at h
      obtain ⟨⟨hk, hv⟩, hrest⟩ := h
      cases k with
      | str s =>
          rw [coerceKeysEntries, keyToString, coerceKeys_id v1 hv,
            coerceKeysEntries_id rest hrest]
      | none => exact absurd hk (by simp)
      | bool b => exact absurd hk (by simp)
      | int n => exact absurd hk (by simp)
end

/-! ## Claims -/

/-- C1 counterexample: the claim says the JSON artifact's byte stream is
ASCII-only (all non-ASCII characters escaped). The code calls `json.dump`
with `ensure_ascii=False`: for the YAML input file `a.yaml` whose parsed
value tree is the string `"é"`, the artifact written to `a.yaml.json` is
the two-byte-character text `"é"`, which contains a character above
U+007F. -/
theorem convert_yaml_to_json_not_ascii :
    fsRead (convert_yaml_to_json envC1 [("a.yaml", "é")] "a.yaml").1 "a.yaml.json" =
      some "\"é\"" ∧
    "\"é\"".data.all (fun c => c.toNat < 128) = false := by
  decide

/-- C1 (amended): for every YAML input file that reads and parses
successfully, the JSON artifact is the parsed value tree serialized with
4-space indentation and with non-ASCII characters written literally (the
stream is UTF-8, not forced to ASCII, since `ensure_ascii=False`), written
to the path formed by appending `.json` to the input path. -/
theorem convert_yaml_to_json_spec (env : Env) (fs : FS) (input_file content : String)
    (data : PyValue)
    (h1 : fsRead fs input_file = some content)
    (h2 : env.yamlParse content = some data) :
    convert_yaml_to_json env fs input_file =
      (fsWrite fs (input_file ++ ".json") (dumpValue data 0),
       some (input_file ++ ".json")) :=
  convert_yaml_eq env fs input_file content data h1 h2

/-- C1 witness: the amended theorem at the concrete input of the
counterexample. -/
theorem convert_yaml_to_json_spec_witness :
    convert_yaml_to_json envC1 [("a.yaml", "é")] "a.yaml" =
      (fsWrite [("a.yaml", "é")] ("a.yaml" ++ ".json") (dumpValue (PyValue.str "é") 0),
       some ("a.yaml" ++ ".json")) :=
  convert_yaml_to_json_spec envC1 [("a.yaml", "é")] "a.yaml" "é" (PyValue.str "é")
    (by decide) rfl

/-- C2: for every input file whose contents are `content`, the Markdown
artifact written to `input + ".md"` is exactly the fenced block
`"```json\n" ++ content ++ "\n```"`, and that new path is returned. -/
theorem prepare_markdown_file_spec (fs : FS) (input_file content : String)
    (h : fsRead fs input_file = some content) :
    prepare_markdown_file fs input_file =
      (fsWrite fs (input_file ++ ".md") ("```json\n" ++ content ++ "\n```"),
       some (input_file ++ ".md")) :=
  prepare_markdown_eq fs input_file content h

/-- C2 witness: the theorem at the one-file system containing `a.json`. -/
theorem prepare_markdown_file_spec_witness :
    prepare_markdown_file [("a.json", "x")] "a.json" =
      (fsWrite [("a.json", "x")] ("a.json" ++ ".md") ("```json\n" ++ "x" ++ "\n```"),
       some ("a.json" ++ ".md")) :=
  prepare_markdown_file_spec [("a.json", "x")] "a.json" "x" (by decide)

/-- C3: on pandoc success the DOCX is written to the Markdown file's base
name (directory stripped) with only its final extension removed and
`.docx` appended, in the current working directory; in particular
`data.yaml.json.md` yields `data.yaml.json.docx`, also when the input
lives in a subdirectory. -/
theorem convert_md_to_docx_naming :
    (∀ env : Env, ∀ fs : FS, ∀ input_file docx : String,
      env.pandoc input_file = some docx →
      convert_md_to_docx env fs input_file =
        (fsWrite fs ((os_splitext (os_basename input_file)).1 ++ ".docx") docx, true))
    ∧ (os_splitext (os_basename "data.yaml.json.md")).1 ++ ".docx" = "data.yaml.json.docx"
    ∧ (os_splitext (os_basename "docs/data.yaml.json.md")).1 ++ ".docx" = "data.yaml.json.docx" :=
  ⟨fun env fs input_file docx h => convert_docx_ok env fs input_file docx h,
   by decide, by decide⟩

/-- C3 witness: the naming theorem at the concrete path of the claim. -/
theorem convert_md_to_docx_naming_witness :
    convert_md_to_docx envDocx [] "data.yaml.json.md" =
      (fsWrite [] ((os_splitext (os_basename "data.yaml.json.md")).1 ++ ".docx") "DOCX",
       true) :=
  convert_md_to_docx_naming.1 envDocx [] "data.yaml.json.md" "DOCX" rfl

/-- C4: after a file's document conversion (success or failure alike — the
oracle `env.pandoc` is unconstrained), the removal list holds the JSON
artifact only when it differs from the original input, plus the Markdown
artifact: with `--keep-temp` both intermediates still exist afterwards,
without it neither does, and for a non-YAML input the original file (which
plays the role of the JSON file) is never deleted. -/
theorem keep_temp_artifact_lifecycle :
    (∀ env : Env, ∀ fs : FS, ∀ file content : String, ∀ data : PyValue,
      (pyLower (os_splitext file).2 = ".yaml" ∨ pyLower (os_splitext file).2 = ".yml") →
      fsRead fs file = some content → env.yamlParse content = some data →
      fsExists (processFile env true fs file) (file ++ ".json") = true ∧
      fsExists (processFile env true fs file) (file ++ ".json" ++ ".md") = true ∧
      fsRead (processFile env false fs file) (file ++ ".json") = Option.none ∧
      fsRead (processFile env false fs file) (file ++ ".json" ++ ".md") = Option.none)
    ∧ (∀ env : Env, ∀ fs : FS, ∀ file content : String,
      ¬(pyLower (os_splitext file).2 = ".yaml" ∨ pyLower (os_splitext file).2 = ".yml") →
      fsRead fs file = some content →
      fsExists (processFile env true fs file) (file ++ ".md") = true ∧
      fsRead (processFile env false fs file) (file ++ ".md") = Option.none ∧
      fsExists (processFile env false fs file) file = true) := by
  constructor
  · intro env fs file content data hext hread hparse
    have hwrite : fsRead (fsWrite fs (file ++ ".json") (dumpValue data 0))
        (file ++ ".json") = some (dumpValue data 0) := fsRead_write_self fs _ _
    have hne : file ++ ".json" ≠ file := string_append_ne file ".json" (by decide)
    rw [processFile_yaml_eq env true fs file content data hext hread hparse,
      processFile_yaml_eq env false fs file content data hext hread hparse]
    exact ⟨(stepsFromJson_keep env _ file _ _ hwrite).1,
      (stepsFromJson_keep env _ file _ _ hwrite).2,
      (stepsFromJson_cleanup env _ file _ _ hwrite hne).1,
      (stepsFromJson_cleanup env _ file _ _ hwrite hne).2⟩
  · intro env fs file content hext hread
    rw [processFile_other_eq env true fs file hext,
      processFile_other_eq env false fs file hext]
    exact ⟨(stepsFromJson_keep env fs file file content hread).2,
      (stepsFromJson_cleanup_self env fs file content hread).1,
      (stepsFromJson_cleanup_self env fs file content hread).2⟩

/-- C4 witness: both branches of the lifecycle theorem at concrete inputs —
the YAML file `a.yaml` of the spec's walkthrough and the plain JSON file
`b.json`. -/
theorem keep_temp_artifact_lifecycle_witness :
    (fsExists (processFile envKV true [("a.yaml", "k: v")] "a.yaml")
        ("a.yaml" ++ ".json") = true ∧
      fsExists (processFile envKV true [("a.yaml", "k: v")] "a.yaml")
        ("a.yaml" ++ ".json" ++ ".md") = true ∧
      fsRead (processFile envKV false [("a.yaml", "k: v")] "a.yaml")
        ("a.yaml" ++ ".json") = Option.none ∧
      fsRead (processFile envKV false [("a.yaml", "k: v")] "a.yaml")
        ("a.yaml" ++ ".json" ++ ".md") = Option.none) ∧
    (fsExists (processFile envKV true [("b.json", "\x7b\x7d")] "b.json")
        ("b.json" ++ ".md") = true ∧
      fsRead (processFile envKV false [("b.json", "\x7b\x7d")] "b.json")
        ("b.json" ++ ".md") = Option.none ∧
      fsExists (processFile envKV false [("b.json", "\x7b\x7d")] "b.json") "b.json" = true) :=
  ⟨keep_temp_artifact_lifecycle.1 envKV [("a.yaml", "k: v")] "a.yaml" "k: v"
      (PyValue.dict [(PyKey.str "k", PyValue.str "v")]) (by decide) (by decide) rfl,
   keep_temp_artifact_lifecycle.2 envKV [("b.json", "\x7b\x7d")] "b.json" "\x7b\x7d"
      (by decide) (by decide)⟩

/-- C5: when the candidate list is empty — no path arguments survive
removal of the flag token and no working-directory entry's lower-cased
name ends in `.json`, `.yaml` or `.yml` — the process exits with status 1
and the file system is returned unchanged (no file writes). -/
theorem no_candidates_exit_one (env : Env) (argv : List String) (fs : FS)
    (h1 : (parseArgs argv).2 = [])
    (h2 : (listdir fs).filter
        (fun f => endsWithAny (pyLower f) [".json", ".yaml", ".yml"]) = []) :
    cliMain env argv fs = (fs, 1) := by
  have hres : resolvedFiles argv fs = [] := by
    simp [resolvedFiles, h1, h2]
  simp [cliMain, hres]

/-- C5 witness: only the flag token on the command line and a directory
holding just `notes.txt`. -/
theorem no_candidates_exit_one_witness :
    cliMain envFail ["--keep-temp"] [("notes.txt", "hi")] = ([("notes.txt", "hi")], 1) :=
  no_candidates_exit_one envFail ["--keep-temp"] [("notes.txt", "hi")]
    (by decide) (by decide)

/-- C6: whenever the candidate file list is non-empty the process exits
with status 0, for every oracle environment — so also when every
individual conversion fails. -/
theorem nonempty_candidates_exit_zero (env : Env) (argv : List String) (fs : FS)
    (h : resolvedFiles argv fs ≠ []) :
    (cliMain env argv fs).2 = 0 := by
  have he : (resolvedFiles argv fs).isEmpty = false := by
    rw [List.isEmpty_eq_false]; exact h
  simp [cliMain, he]

/-- C6 witness: one explicit argument naming a file that does not even
exist, in an environment where both collaborators always fail; the run
still exits 0. -/
theorem nonempty_candidates_exit_zero_witness :
    (cliMain envFail ["data.yaml"] []).2 = 0 :=
  nonempty_candidates_exit_zero envFail ["data.yaml"] [] (by decide)

/-- C7 counterexample: the YAML mapping `1: a` parses to a dict with the
integer key `1`, and `json.dump` coerces that key to the string `"1"`, so
the JSON artifact of `{1: a}` is byte-for-byte the artifact of the distinct
tree `{"1": a}`. No parse function can map that one text back to both
trees, so the round trip is not the identity on value trees. -/
theorem json_roundtrip_counterexample :
    ¬ ∃ p : String → Option PyValue,
        p (dumpValue (PyValue.dict [(PyKey.int 1, PyValue.str "a")]) 0) =
          some (PyValue.dict [(PyKey.int 1, PyValue.str "a")]) ∧
        p (dumpValue (PyValue.dict [(PyKey.str "1", PyValue.str "a")]) 0) =
          some (PyValue.dict [(PyKey.str "1", PyValue.str "a")]) := by
  rintro ⟨p, h1, h2⟩
  have hd : dumpValue (PyValue.dict [(PyKey.int 1, PyValue.str "a")]) 0 =
      dumpValue (PyValue.dict [(PyKey.str "1", PyValue.str "a")]) 0 := by decide
  rw [hd, h2] at h1
  simp at h1

/-- C7 (amended): the JSON artifact is byte-for-byte the serialization of
the parsed value tree with every mapping key coerced to its string form,
and that coercion is the identity exactly on trees all of whose mapping
keys are already strings — so the YAML-parse / JSON-serialize / JSON-parse
round trip preserves the value tree up to stringification of mapping keys,
and is the identity when all mapping keys are strings. -/
theorem json_artifact_key_coercion :
    (∀ v : PyValue, ∀ lvl : Nat, dumpValue v lvl = dumpValue (coerceKeys v) lvl)
    ∧ (∀ v : PyValue, allStrKeys (coerceKeys v) = true)
    ∧ (∀ v : PyValue, allStrKeys v = true → coerceKeys v = v) :=
  ⟨fun v lvl => (dumpValue_coerce v lvl).symm, coerceKeys_strKeys, coerceKeys_id⟩

/-- C7 witness: the key-coercion theorem at the string-keyed mapping
`{"k": "v"}`, whose coercion is the identity. -/
theorem json_artifact_key_coercion_witness :
    coerceKeys (PyValue.dict [(PyKey.str "k", PyValue.str "v")]) =
      PyValue.dict [(PyKey.str "k", PyValue.str "v")] :=
  json_artifact_key_coercion.2.2 (PyValue.dict [(PyKey.str "k", PyValue.str "v")])
    (by decide)

/-- C8: a YAML file whose parse fails is skipped leaving the file system
exactly as it was (no artifact), and the driver loop is a fold over the
whole candidate list with no early exit, so every other input is still
processed to completion. -/
theorem batch_failure_isolation :
    (∀ env : Env, ∀ keep : Bool, ∀ fs : FS, ∀ file content : String,
      (pyLower (os_splitext file).2 = ".yaml" ∨ pyLower (os_splitext file).2 = ".yml") →
      fsRead fs file = some content → env.yamlParse content = Option.none →
      processFile env keep fs file = fs)
    ∧ (∀ env : Env, ∀ argv : List String, ∀ fs : FS,
      resolvedFiles argv fs ≠ [] →
      cliMain env argv fs =
        ((resolvedFiles argv fs).foldl (processFile env (parseArgs argv).1) fs, 0)) := by
  constructor
  · exact fun env keep fs file content hext hread hparse =>
      processFile_yaml_fail env keep fs file content hext hread hparse
  · intro env argv fs h
    have he : (resolvedFiles argv fs).isEmpty = false := by
      rw [List.isEmpty_eq_false]; exact h
    simp [cliMain, he]

/-- C8 witness: a batch of the unparsable `a.yaml` followed by the plain
file `b.json`: processing the failing file leaves the file system
untouched, and the driver folds over both files and exits 0. -/
theorem batch_failure_isolation_witness :
    processFile envFail true [("a.yaml", ": :")] "a.yaml" = [("a.yaml", ": :")] ∧
    cliMain envFail ["a.yaml", "b.json"] [("a.yaml", ": :")] =
      ((resolvedFiles ["a.yaml", "b.json"] [("a.yaml", ": :")]).foldl
        (processFile envFail (parseArgs ["a.yaml", "b.json"]).1) [("a.yaml", ": :")], 0) :=
  ⟨batch_failure_isolation.1 envFail true [("a.yaml", ": :")] "a.yaml" ": :"
      (by decide) (by decide) rfl,
   batch_failure_isolation.2 envFail ["a.yaml", "b.json"] [("a.yaml", ": :")] (by decide)⟩

/-- C9 (implicit): explicit path arguments get no extension filtering: a
file whose lower-cased `splitext` extension is not `.yaml`/`.yml` —
`.txt`, `.docx`, no extension at all — goes straight to the Markdown
wrapper as if it were JSON and through the rest of the pipeline, and the
resolved list for explicit arguments is exactly the argument list with the
flag removed, unfiltered. -/
theorem explicit_args_unfiltered :
    (∀ env : Env, ∀ keep : Bool, ∀ fs : FS, ∀ file : String,
      ¬(pyLower (os_splitext file).2 = ".yaml" ∨ pyLower (os_splitext file).2 = ".yml") →
      processFile env keep fs file = stepsFromJson env keep fs file file)
    ∧ (∀ argv : List String, ∀ fs : FS, (parseArgs argv).2 ≠ [] →
      resolvedFiles argv fs = (parseArgs argv).2) := by
  constructor
  · exact fun env keep fs file hext => processFile_other_eq env keep fs file hext
  · intro argv fs h
    have he : ((parseArgs argv).2).isEmpty = false := by
      rw [List.isEmpty_eq_false]; exact h
    simp [resolvedFiles, he]

/-- C9 witness: the extensionless `README` and the `.txt` file are both
handed to the Markdown wrapper unchanged, and the explicit argument list
`["notes.txt", "README"]` resolves to itself. -/
theorem explicit_args_unfiltered_witness :
    processFile envFail false [] "README" = stepsFromJson envFail false [] "README" "README" ∧
    resolvedFiles ["notes.txt", "README"] [] = (parseArgs ["notes.txt", "README"]).2 :=
  ⟨explicit_args_unfiltered.1 envFail false [] "README" (by decide),
   explicit_args_unfiltered.2 ["notes.txt", "README"] [] (by decide)⟩

/-- C10 (implicit): every argument equal to the exact string `--keep-temp`
is consumed as the retention flag — in any position and however many times
it appears — and removed from the file list; and a file literally named
`--keep-temp` can never appear in the resolved candidate list (the
directory-scan fallback also cannot produce it, since the name does not end
in a candidate extension). -/
theorem keep_temp_flag_consumed :
    (∀ pre post : List String,
      parseArgs (pre ++ "--keep-temp" :: post) =
        (true, (pre ++ post).filter (fun a => a ≠ "--keep-temp")))
    ∧ (∀ argv : List String, ∀ fs : FS, "--keep-temp" ∉ resolvedFiles argv fs) := by
  constructor
  · intro pre post
    simp only [parseArgs, Prod.mk.injEq]
    constructor
    · exact List.elem_iff.mpr (List.mem_append_right _ (List.mem_cons_self _ _))
    · simp [List.filter_append, List.filter_cons]
  · intro argv fs hmem
    simp only [resolvedFiles] at hmem
    by_cases he : ((parseArgs argv).2).isEmpty
    · rw [if_pos he] at hmem
      have h2 := (List.mem_filter.mp hmem).2
      exact absurd h2 (by decide)
    · rw [if_neg he] at hmem
      simp only [parseArgs] at hmem
      have h2 := (List.mem_filter.mp hmem).2
      simp at h2

/-- C10 witness: the flag between two file names is consumed, and it is
absent from the resolved list of that same command line. -/
theorem keep_temp_flag_consumed_witness :
    parseArgs (["a.yaml"] ++ "--keep-temp" :: ["b.json"]) =
      (true, (["a.yaml"] ++ ["b.json"]).filter (fun a => a ≠ "--keep-temp")) ∧
    "--keep-temp" ∉ resolvedFiles ["a.yaml", "--keep-temp", "b.json"] [] :=
  ⟨keep_temp_flag_consumed.1 ["a.yaml"] ["b.json"],
   keep_temp_flag_consumed.2 ["a.yaml", "--keep-temp", "b.json"] []⟩
